import Mathlib

/-!
Verification of `RematerializeParallelOps.cpp` (IREE preprocessing pass).

The file shallowly embeds the pass's own code:
  * `isScalarOrTensorOfSizeOne` — the scalar/size-one type test;
  * `RematerializeParallelOpsPattern.matchAndRewrite` — the fusion rewrite
    rule, parameterised over the host oracles
    `linalg::areElementwiseOpsFusable` (a boolean per operand edge) and
    `linalg::fuseElementwiseOps` (which, on success, yields the fused
    operation inside the rewritten body);
  * `RematerializeParallelOpsPass.runOnOperation` — the per-function pass,
    parameterised over the host greedy pattern-application driver.

MLIR host infrastructure (the fusion legality analysis, the structural
fusion itself, and the greedy driver) is not part of this repository's
sources, so it enters only as abstract parameters, or — where a property
depends on its behaviour — as a definition modelled from the design
specification.
-/

namespace Rematerialize

/-- Types as the pass observes them: either a non-tensor type (with a flag
recording whether it is `isIntOrIndexOrFloat`), or a ranked tensor type with
a shape whose dimensions are static (`some d`) or dynamic (`none`). -/
inductive Ty where
  | nonTensor (isIntIndexFloat : Bool)
  | rankedTensor (shape : List (Option Nat))
deriving DecidableEq

/-- `RankedTensorType::hasStaticShape`: every dimension is static. -/
def hasStaticShape (shape : List (Option Nat)) : Bool :=
  shape.all Option.isSome

/-- `ShapedType::getNumElements`: product of the (static) dimensions. -/
def getNumElements (shape : List (Option Nat)) : Nat :=
  (shape.map (fun d => d.getD 0)).foldl (fun a b => a * b) 1

/-- Embedding of `isScalarOrTensorOfSizeOne` (RematerializeParallelOps.cpp,
lines 24–29): a ranked tensor qualifies iff it has a static shape with
exactly one element; any other type qualifies iff `isIntOrIndexOrFloat`. -/
def isScalarOrTensorOfSizeOne : Ty → Bool
  | Ty.rankedTensor shape => hasStaticShape shape && getNumElements shape == 1
  | Ty.nonTensor f => f

/-- An SSA value: an identity plus its type. -/
structure Val where
  id : Nat
  ty : Ty
deriving DecidableEq

/-- An operation: identity, ordered operands, ordered results, and a named
attribute dictionary (attribute values are opaque, modelled as `Nat`). -/
structure Op where
  opid : Nat
  operands : List Val
  results : List Val
  attrs : List (String × Nat)
deriving DecidableEq

/-- `Operation::getAttr`: look an attribute up by name. -/
def getAttr (op : Op) (name : String) : Option Nat :=
  (op.attrs.find? (fun p => p.fst == name)).map Prod.snd

/-- `Operation::setAttr`: set an attribute, replacing any previous value. -/
def setAttr (op : Op) (name : String) (v : Nat) : Op :=
  { op with attrs := (name, v) :: op.attrs.filter (fun p => !(p.fst == name)) }

/-- `ValueRange::take_back n`: the trailing `n` elements. -/
def takeBack (l : List Val) (n : Nat) : List Val :=
  l.drop (l.length - n)

/-- The per-value substitution performed by `RewriterBase::replaceOp`:
a value whose identity matches the `k`-th replaced result is mapped to the
`k`-th replacement; every other value is left alone. -/
def substVal (old new : List Val) (v : Val) : Val :=
  match (old.zip new).find? (fun p => p.fst.id == v.id) with
  | some p => p.snd
  | none => v

/-- Apply the replacement substitution to one operation's operands. -/
def replaceUsesInOp (old new : List Val) (op : Op) : Op :=
  { op with operands := op.operands.map (substVal old new) }

/-- `RewriterBase::replaceOp(target, repl)`: replace every use of
`target`'s results by the corresponding replacement value, then erase
`target` from the body. -/
def replaceOpIR (body : List Op) (target : Op) (repl : List Val) : List Op :=
  (body.map (replaceUsesInOp target.results repl)).filter
    (fun op => !(op.opid == target.opid))

/-- The lambda `isScalarValue` of `matchAndRewrite` (lines 41–43). -/
def isScalarValue (v : Val) : Bool :=
  isScalarOrTensorOfSizeOne v.ty

/-- The outcome of `linalg::fuseElementwiseOps` on success: the function
body after the structural fusion, with the freshly constructed fused
operation singled out (`bodyBefore ++ fusedOp :: bodyAfter` is the body the
rewriter holds when the call returns; the original consumer is still in it —
the pattern itself erases it via `replaceOp`). -/
structure ElementwiseOpFusionResult where
  bodyBefore : List Op
  fusedOp : Op
  bodyAfter : List Op
deriving DecidableEq

/-- The operand-edge scan of `matchAndRewrite` (lines 49–64): starting at
operand index `i` with `n` operand edges left, skip edges whose producer is
not fusable, attempt the fusion at fusable edges, and stop at the first
edge where the fusion succeeds. -/
def scanFrom (fusable : Nat → Bool) (fuse : Nat → Option ElementwiseOpFusionResult) :
    Nat → Nat → Option (Nat × ElementwiseOpFusionResult)
  | _, 0 => none
  | i, n + 1 =>
    if fusable i then
      match fuse i with
      | some r => some (i, r)
      | none => scanFrom fusable fuse (i + 1) n
    else scanFrom fusable fuse (i + 1) n

/-- A `LogicalResult` together with the function body the rewriter holds
when the pattern returns. -/
structure RewriteResult where
  succeeded : Bool
  body : List Op
deriving DecidableEq

/-- Lines 56–58: re-attach the original consumer's `lowering_config`
attribute, when present, to the fused operation. -/
def attachLoweringConfig (genericOp fusedOp : Op) : Op :=
  match getAttr genericOp "lowering_config" with
  | some a => setAttr fusedOp "lowering_config" a
  | none => fusedOp

/-- Embedding of `RematerializeParallelOpsPattern::matchAndRewrite`
(lines 37–66). `fusable i` stands for
`linalg::areElementwiseOpsFusable(&opOperand_i)` and `fuse i` for
`linalg::fuseElementwiseOps(rewriter, &opOperand_i)`; both are abstract
host oracles. On success the pattern re-attaches the consumer's
`lowering_config`, takes the fused operation's trailing results as
replacements, and calls `replaceOp` on the consumer; on failure the body is
returned untouched. -/
def matchAndRewrite (fusable : Nat → Bool) (fuse : Nat → Option ElementwiseOpFusionResult)
    (body : List Op) (genericOp : Op) : RewriteResult :=
  if genericOp.operands.all isScalarValue && genericOp.results.all isScalarValue then
    ⟨false, body⟩
  else
    match scanFrom fusable fuse 0 genericOp.operands.length with
    | some (_, r) =>
      let fusedOp := attachLoweringConfig genericOp r.fusedOp
      let newBody := r.bodyBefore ++ fusedOp :: r.bodyAfter
      let replacements := takeBack fusedOp.results genericOp.results.length
      ⟨true, replaceOpIR newBody genericOp replacements⟩
    | none => ⟨false, body⟩

/-- A `func::FuncOp`: the function body the pass operates on. -/
structure FuncOp where
  body : List Op
deriving DecidableEq

/-- The observable outcome of one `runOnOperation` invocation: the function
left behind, and whether `signalPassFailure` was called. -/
structure PassOutcome where
  funcOp : FuncOp
  signaledFailure : Bool
deriving DecidableEq

/-- Embedding of `RematerializeParallelOpsPass::runOnOperation`
(lines 73–86). `controlFn` is the optional per-function predicate
(a null `std::function` is `none`); `applyGreedy` stands for
`applyPatternsAndFoldGreedily` with the pass's pattern set, returning
whether it converged together with the (possibly partially rewritten)
function. If the control predicate is present and rejects the function the
pass returns at once; otherwise the driver runs and non-convergence is
signalled as pass failure. -/
def runOnOperation (controlFn : Option (FuncOp → Bool))
    (applyGreedy : FuncOp → Bool × FuncOp) (funcOp : FuncOp) : PassOutcome :=
  match controlFn with
  | some cf =>
    if !cf funcOp then ⟨funcOp, false⟩
    else ⟨(applyGreedy funcOp).2, !(applyGreedy funcOp).1⟩
  | none => ⟨(applyGreedy funcOp).2, !(applyGreedy funcOp).1⟩

/-- Number of fusable-producer use-edges in a body: operand positions
`(op, i)` at which the legality oracle accepts the edge. -/
def fusableEdgeCount (fusable : Op → Nat → Bool) (body : List Op) : Nat :=
  (body.map (fun op => ((List.range op.operands.length).filter (fusable op)).length)).sum

/-- Modelled from the spec: the greedy worklist fixed-point driver
(`applyPatternsAndFoldGreedily`, host infrastructure absent from the
sources). `step` applies any rewrite of the pattern set, returning `none`
at a fixed point; the driver re-runs it until quiescence, within an
iteration budget `fuel` — exhausting the budget is the driver's
non-convergence report (`none`). -/
def runToFixpointFuel (step : List Op → Option (List Op)) :
    Nat → List Op → Option (List Op)
  | 0, _ => none
  | fuel + 1, s =>
    match step s with
    | none => some s
    | some s2 => runToFixpointFuel step fuel s2

/-- Number of uses of a value in a body: operand slots whose value identity
matches. -/
def countUsesIn (body : List Op) (v : Val) : Nat :=
  (body.map (fun op => (op.operands.filter (fun w => w.id == v.id)).length)).sum

/-- Restatement of the claimed type class from the specification's words
(for comparison with the source's `isScalarOrTensorOfSizeOne`): a plain
integer/index/float scalar, or a statically-shaped ranked tensor with
exactly one element. -/
def isSingleElementTypeSpec (t : Ty) : Prop :=
  t = Ty.nonTensor true ∨
    ∃ shape, t = Ty.rankedTensor shape ∧ (∀ d ∈ shape, d ≠ none) ∧
      (shape.map (fun d => d.getD 0)).prod = 1

/-- A type satisfying the specification's description of an effectively
scalar type satisfies the source's `isScalarOrTensorOfSizeOne`. -/
theorem isScalar_of_spec (t : Ty) (h : isSingleElementTypeSpec t) :
    isScalarOrTensorOfSizeOne t = true := by
  rcases h with h | ⟨shape, ht, hstat, hprod⟩
  · subst h; rfl
  · subst ht
    show (hasStaticShape shape && getNumElements shape == 1) = true
    rw [Bool.and_eq_true]
    refine ⟨?_, ?_⟩
    · rw [hasStaticShape, List.all_eq_true]
      intro d hd
      rw [Option.isSome_iff_ne_none]
      exact hstat d hd
    · rw [beq_iff_eq, getNumElements, ← List.prod_eq_foldl]
      exact hprod

/-- Example non-scalar tensor type used by concrete instances. -/
def tensorTy : Ty := Ty.rankedTensor [some 4]

/-- Example operation on non-scalar tensors used by concrete instances. -/
def exampleOp : Op := ⟨0, [⟨10, tensorTy⟩], [⟨20, tensorTy⟩], []⟩

/-- Example operation all of whose operand/result types are effectively
scalar. -/
def scalarOp : Op :=
  ⟨1, [⟨11, Ty.nonTensor true⟩], [⟨21, Ty.rankedTensor [some 1, some 1]⟩], []⟩

/-- Example operation with no operands and no results. -/
def emptyOp : Op := ⟨2, [], [], []⟩

/-- C3: if every operand and every result of the candidate operation has a
type that is a plain integer/index/float scalar or a statically-shaped
tensor with exactly one element, `matchAndRewrite` returns failure with the
body untouched, for every fusability oracle and every fusion outcome. -/
theorem all_scalar_op_never_fused (fusable : Nat → Bool)
    (fuse : Nat → Option ElementwiseOpFusionResult) (body : List Op) (genericOp : Op)
    (h : ∀ v ∈ genericOp.operands ++ genericOp.results, isSingleElementTypeSpec v.ty) :
    matchAndRewrite fusable fuse body genericOp = ⟨false, body⟩ := by
  have h1 : genericOp.operands.all isScalarValue = true := by
    rw [List.all_eq_true]
    intro v hv
    exact isScalar_of_spec v.ty (h v (List.mem_append_left _ hv))
  have h2 : genericOp.results.all isScalarValue = true := by
    rw [List.all_eq_true]
    intro v hv
    exact isScalar_of_spec v.ty (h v (List.mem_append_right _ hv))
  simp [matchAndRewrite, h1, h2]

/-- Witness for C3 at a concrete all-scalar operation, with an oracle that
accepts every edge and a fusion that would succeed. -/
theorem all_scalar_op_never_fused_witness :
    matchAndRewrite (fun _ => true) (fun _ => some ⟨[], exampleOp, []⟩)
      [scalarOp] scalarOp = ⟨false, [scalarOp]⟩ := by
  refine all_scalar_op_never_fused _ _ _ _ ?_
  intro v hv
  rcases List.mem_append.mp hv with hv | hv
  · rcases List.mem_singleton.mp hv with rfl
    exact Or.inl rfl
  · rcases List.mem_singleton.mp hv with rfl
    exact Or.inr ⟨[some 1, some 1], rfl, by decide, by decide⟩

/-- C10: an operation with no operands and no results is classified as
all-scalar (both `all_of` checks hold vacuously) and `matchAndRewrite`
always returns failure on it, with the body untouched. -/
theorem empty_op_classified_scalar_fails (fusable : Nat → Bool)
    (fuse : Nat → Option ElementwiseOpFusionResult) (body : List Op) (genericOp : Op)
    (h1 : genericOp.operands = []) (h2 : genericOp.results = []) :
    (genericOp.operands.all isScalarValue && genericOp.results.all isScalarValue) = true ∧
    matchAndRewrite fusable fuse body genericOp = ⟨false, body⟩ := by
  refine ⟨by rw [h1, h2]; rfl, ?_⟩
  simp [matchAndRewrite, h1, h2]

/-- Witness for C10 at a concrete empty operation. -/
theorem empty_op_classified_scalar_fails_witness :
    (emptyOp.operands.all isScalarValue && emptyOp.results.all isScalarValue) = true ∧
    matchAndRewrite (fun _ => true) (fun _ => some ⟨[], exampleOp, []⟩)
      [emptyOp] emptyOp = ⟨false, [emptyOp]⟩ :=
  empty_op_classified_scalar_fails _ _ _ _ rfl rfl

/-- C6: when `matchAndRewrite` fails the body it returns is exactly the
body it was given (zero side effects); when it succeeds, the returned body
is exactly one `replaceOp` of the consumer by the trailing results of the
(config-annotated) fused operation inside the fused body. -/
theorem failure_no_side_effects (fusable : Nat → Bool)
    (fuse : Nat → Option ElementwiseOpFusionResult) (body : List Op) (genericOp : Op) :
    ((matchAndRewrite fusable fuse body genericOp).succeeded = false →
      (matchAndRewrite fusable fuse body genericOp).body = body) ∧
    ((matchAndRewrite fusable fuse body genericOp).succeeded = true →
      ∃ i r, scanFrom fusable fuse 0 genericOp.operands.length = some (i, r) ∧
        (matchAndRewrite fusable fuse body genericOp).body =
          replaceOpIR
            (r.bodyBefore ++ attachLoweringConfig genericOp r.fusedOp :: r.bodyAfter)
            genericOp
            (takeBack (attachLoweringConfig genericOp r.fusedOp).results
              genericOp.results.length)) := by
  by_cases hs : (genericOp.operands.all isScalarValue &&
      genericOp.results.all isScalarValue) = true
  · constructor
    · intro _; simp [matchAndRewrite, hs]
    · intro hc; simp [matchAndRewrite, hs] at hc
  · rcases hscan : scanFrom fusable fuse 0 genericOp.operands.length with _ | ⟨i, r⟩
    · constructor
      · intro _; simp [matchAndRewrite, hs, hscan]
      · intro hc; simp [matchAndRewrite, hs, hscan] at hc
    · constructor
      · intro hc; simp [matchAndRewrite, hs, hscan] at hc
      · intro _
        exact ⟨i, r, rfl, by simp [matchAndRewrite, hs, hscan]⟩

/-- Witness for C6 at a concrete failing invocation: no operand edge is
fusable and the returned body is the input body. -/
theorem failure_no_side_effects_witness :
    (matchAndRewrite (fun _ => false) (fun _ => none) [exampleOp] exampleOp).body =
      [exampleOp] :=
  (failure_no_side_effects (fun _ => false) (fun _ => none) [exampleOp] exampleOp).1
    (by decide)

/-- C7: if the control predicate is supplied and evaluates false on the
function, the pass leaves the function untouched and signals no failure;
if no control predicate is supplied, the greedy driver is applied to the
function. -/
theorem control_fn_gates_pass (applyGreedy : FuncOp → Bool × FuncOp) (funcOp : FuncOp) :
    (∀ cf : FuncOp → Bool, cf funcOp = false →
      runOnOperation (some cf) applyGreedy funcOp = ⟨funcOp, false⟩) ∧
    runOnOperation none applyGreedy funcOp =
      ⟨(applyGreedy funcOp).2, !(applyGreedy funcOp).1⟩ := by
  constructor
  · intro cf hcf
    simp [runOnOperation, hcf]
  · rfl

/-- Witness for C7 at a concrete function and a control predicate that
rejects it. -/
theorem control_fn_gates_pass_witness :
    runOnOperation (some (fun _ => false)) (fun _ => (true, ⟨[]⟩)) ⟨[exampleOp]⟩ =
      ⟨⟨[exampleOp]⟩, false⟩ :=
  (control_fn_gates_pass (fun _ => (true, ⟨[]⟩)) ⟨[exampleOp]⟩).1 (fun _ => false) rfl

/-- C8: on a function the control predicate does not reject, the pass runs
the greedy driver exactly once, adopts its resulting function, and signals
pass failure precisely when the driver reports non-convergence. -/
theorem pass_failure_iff_driver_nonconvergence (controlFn : Option (FuncOp → Bool))
    (applyGreedy : FuncOp → Bool × FuncOp) (funcOp : FuncOp)
    (henabled : ∀ cf, controlFn = some cf → cf funcOp = true) :
    runOnOperation controlFn applyGreedy funcOp =
      ⟨(applyGreedy funcOp).2, !(applyGreedy funcOp).1⟩ ∧
    ((runOnOperation controlFn applyGreedy funcOp).signaledFailure = true ↔
      (applyGreedy funcOp).1 = false) := by
  have h1 : runOnOperation controlFn applyGreedy funcOp =
      ⟨(applyGreedy funcOp).2, !(applyGreedy funcOp).1⟩ := by
    cases controlFn with
    | none => rfl
    | some cf => simp [runOnOperation, henabled cf rfl]
  refine ⟨h1, ?_⟩
  rw [h1]
  simp

/-- Witness for C8 at a concrete function with no control predicate and a
driver that reports non-convergence. -/
theorem pass_failure_iff_driver_nonconvergence_witness :
    runOnOperation none (fun f => (false, f)) ⟨[exampleOp]⟩ =
      ⟨((fun (f : FuncOp) => (false, f)) ⟨[exampleOp]⟩).2,
        !((fun (f : FuncOp) => (false, f)) ⟨[exampleOp]⟩).1⟩ ∧
    ((runOnOperation none (fun f => (false, f)) ⟨[exampleOp]⟩).signaledFailure = true ↔
      ((fun (f : FuncOp) => (false, f)) ⟨[exampleOp]⟩).1 = false) :=
  pass_failure_iff_driver_nonconvergence none (fun f => (false, f)) ⟨[exampleOp]⟩
    (fun _ h => Option.noConfusion h)

/-- C9: the modelled fixed-point driver terminates whenever every
successful rewrite step strictly reduces the number of fusable-producer
use-edges: with any iteration budget exceeding the initial count, it
converges to a state on which no rewrite fires. -/
theorem fixed_point_driver_terminates (fusable : Op → Nat → Bool)
    (step : List Op → Option (List Op))
    (hdec : ∀ s s2, step s = some s2 →
      fusableEdgeCount fusable s2 < fusableEdgeCount fusable s)
    (fuel : Nat) (s : List Op) (hfuel : fusableEdgeCount fusable s < fuel) :
    ∃ t, runToFixpointFuel step fuel s = some t ∧ step t = none := by
  induction fuel generalizing s with
  | zero => omega
  | succ n ih =>
    rcases hstep : step s with _ | s2
    · exact ⟨s, by simp [runToFixpointFuel, hstep], hstep⟩
    · have hlt := hdec s s2 hstep
      rcases ih s2 (by omega) with ⟨t, ht, hfix⟩
      exact ⟨t, by simp [runToFixpointFuel, hstep, ht], hfix⟩

/-- Concrete strictly-decreasing rewrite step used by the C9 witness: it
rewrites the one-operation body to the empty body and fires nowhere else. -/
def c9Step : List Op → Option (List Op) :=
  fun s => if s = [exampleOp] then some [] else none

/-- Witness for C9 at a concrete body with one fusable edge. -/
theorem fixed_point_driver_terminates_witness :
    ∃ t, runToFixpointFuel c9Step 2 [exampleOp] = some t ∧ c9Step t = none := by
  refine fixed_point_driver_terminates (fun _ _ => true) c9Step ?_ 2 [exampleOp] (by decide)
  intro s s2 h
  unfold c9Step at h
  split at h
  · rename_i hs
    subst hs
    cases h
    decide
  · cases h

/-- The operand scan returns the first index at which the legality check
passes and the fusion succeeds, skipping earlier non-fusable edges. -/
theorem scanFrom_first_fusable (fusable : Nat → Bool)
    (fuse : Nat → Option ElementwiseOpFusionResult) (n i i0 : Nat)
    (r : ElementwiseOpFusionResult)
    (hlo : i ≤ i0) (hhi : i0 < i + n)
    (hfus : fusable i0 = true)
    (hmin : ∀ j, i ≤ j → j < i0 → fusable j = false)
    (hr : fuse i0 = some r) :
    scanFrom fusable fuse i n = some (i0, r) := by
  have main : ∀ m k, k ≤ i0 → i0 < k + m →
      (∀ j, k ≤ j → j < i0 → fusable j = false) →
      scanFrom fusable fuse k m = some (i0, r) := by
    intro m
    induction m with
    | zero => intro k h1 h2 h3; omega
    | succ m ih =>
      intro k h1 h2 h3
      by_cases hk : k = i0
      · subst hk
        simp [scanFrom, hfus, hr]
      · have hlt : k < i0 := lt_of_le_of_ne h1 hk
        have hfk : fusable k = false := h3 k le_rfl hlt
        have htail := ih (k + 1) (by omega) (by omega)
          (fun j hj1 hj2 => h3 j (by omega) hj2)
        simp [scanFrom, hfk, htail]
  exact main n i hlo hhi hmin

/-- C4: when some operand index is fusable and the fusion succeeds there,
`matchAndRewrite` performs the fusion at the smallest such index — edges
before it that fail the legality check are skipped, not stopped at — and
the rewrite succeeds with exactly that edge's fusion result. -/
theorem fusion_at_first_fusable_operand (fusable : Nat → Bool)
    (fuse : Nat → Option ElementwiseOpFusionResult) (body : List Op) (genericOp : Op)
    (i0 : Nat) (r : ElementwiseOpFusionResult)
    (hns : (genericOp.operands.all isScalarValue &&
      genericOp.results.all isScalarValue) = false)
    (hi0 : i0 < genericOp.operands.length)
    (hfus : fusable i0 = true)
    (hmin : ∀ j < i0, fusable j = false)
    (hr : fuse i0 = some r) :
    scanFrom fusable fuse 0 genericOp.operands.length = some (i0, r) ∧
    matchAndRewrite fusable fuse body genericOp =
      ⟨true, replaceOpIR
        (r.bodyBefore ++ attachLoweringConfig genericOp r.fusedOp :: r.bodyAfter)
        genericOp
        (takeBack (attachLoweringConfig genericOp r.fusedOp).results
          genericOp.results.length)⟩ := by
  have hscan := scanFrom_first_fusable fusable fuse genericOp.operands.length 0 i0 r
    (Nat.zero_le _) (by omega) hfus (fun j _ hj => hmin j hj) hr
  exact ⟨hscan, by simp [matchAndRewrite, hns, hscan]⟩

/-- Consumer with two operand edges, used by the C4 witness. -/
def c4Op : Op := ⟨3, [⟨10, tensorTy⟩, ⟨12, tensorTy⟩], [⟨22, tensorTy⟩], []⟩

/-- Legality oracle for the C4 witness: only operand edge 1 is fusable. -/
def c4Fusable : Nat → Bool := fun i => i == 1

/-- Fusion outcome at edge 1 for the C4 witness. -/
def c4Res : ElementwiseOpFusionResult :=
  ⟨[], ⟨5, [⟨10, tensorTy⟩], [⟨40, tensorTy⟩], []⟩, [c4Op]⟩

/-- Fusion oracle for the C4 witness: succeeds only at edge 1. -/
def c4Fuse : Nat → Option ElementwiseOpFusionResult :=
  fun i => if i == 1 then some c4Res else none

/-- Witness for C4: edge 0 fails the legality check and is skipped; the
fusion happens at edge 1. -/
theorem fusion_at_first_fusable_operand_witness :
    scanFrom c4Fusable c4Fuse 0 c4Op.operands.length = some (1, c4Res) ∧
    matchAndRewrite c4Fusable c4Fuse [c4Op] c4Op =
      ⟨true, replaceOpIR
        (c4Res.bodyBefore ++ attachLoweringConfig c4Op c4Res.fusedOp :: c4Res.bodyAfter)
        c4Op
        (takeBack (attachLoweringConfig c4Op c4Res.fusedOp).results
          c4Op.results.length)⟩ :=
  fusion_at_first_fusable_operand c4Fusable c4Fuse [c4Op] c4Op 1 c4Res
    (by decide) (by decide) rfl (by decide) rfl

/-- `attachLoweringConfig` does not change the operation's identity. -/
theorem opid_attachLoweringConfig (g f : Op) :
    (attachLoweringConfig g f).opid = f.opid := by
  unfold attachLoweringConfig
  cases getAttr g "lowering_config" <;> rfl

/-- Use replacement does not change an operation's identity. -/
theorem opid_replaceUsesInOp (old new : List Val) (op : Op) :
    (replaceUsesInOp old new op).opid = op.opid := rfl

/-- Use replacement does not change an operation's attributes. -/
theorem getAttr_replaceUsesInOp (old new : List Val) (op : Op) (name : String) :
    getAttr (replaceUsesInOp old new op) name = getAttr op name := rfl

/-- Reading back the attribute just set yields the value set. -/
theorem getAttr_setAttr_same (op : Op) (name : String) (v : Nat) :
    getAttr (setAttr op name v) name = some v := by
  simp [getAttr, setAttr]

/-- On a successful fusion, the config-annotated fused operation (with the
replacement substitution applied to its operands) is an element of the
returned body. -/
theorem mem_body_of_success (fusable : Nat → Bool)
    (fuse : Nat → Option ElementwiseOpFusionResult) (body : List Op) (genericOp : Op)
    (i : Nat) (r : ElementwiseOpFusionResult)
    (hns : (genericOp.operands.all isScalarValue &&
      genericOp.results.all isScalarValue) = false)
    (hscan : scanFrom fusable fuse 0 genericOp.operands.length = some (i, r))
    (hid : r.fusedOp.opid ≠ genericOp.opid) :
    (matchAndRewrite fusable fuse body genericOp).succeeded = true ∧
    replaceUsesInOp genericOp.results
        (takeBack (attachLoweringConfig genericOp r.fusedOp).results
          genericOp.results.length)
        (attachLoweringConfig genericOp r.fusedOp)
      ∈ (matchAndRewrite fusable fuse body genericOp).body := by
  have hbody : (matchAndRewrite fusable fuse body genericOp).body =
      replaceOpIR
        (r.bodyBefore ++ attachLoweringConfig genericOp r.fusedOp :: r.bodyAfter)
        genericOp
        (takeBack (attachLoweringConfig genericOp r.fusedOp).results
          genericOp.results.length) := by
    simp [matchAndRewrite, hns, hscan]
  refine ⟨by simp [matchAndRewrite, hns, hscan], ?_⟩
  rw [hbody]
  unfold replaceOpIR
  apply List.mem_filter.mpr
  constructor
  · exact List.mem_map_of_mem _
      (List.mem_append_right _ (List.mem_cons_self _ _))
  · rw [Bool.not_eq_true']
    rw [beq_eq_false_iff_ne]
    rw [opid_replaceUsesInOp, opid_attachLoweringConfig]
    exact hid

/-- C1: on a successful fusion, the fused operation present in the
resulting body carries the original consumer's `lowering_config` value
when the consumer had one, and carries exactly whatever the underlying
fusion produced when the consumer had none. -/
theorem consumer_lowering_config_carried (fusable : Nat → Bool)
    (fuse : Nat → Option ElementwiseOpFusionResult) (body : List Op) (genericOp : Op)
    (i : Nat) (r : ElementwiseOpFusionResult)
    (hns : (genericOp.operands.all isScalarValue &&
      genericOp.results.all isScalarValue) = false)
    (hscan : scanFrom fusable fuse 0 genericOp.operands.length = some (i, r))
    (hid : r.fusedOp.opid ≠ genericOp.opid) :
    (matchAndRewrite fusable fuse body genericOp).succeeded = true ∧
    ∃ op ∈ (matchAndRewrite fusable fuse body genericOp).body,
      op.opid = r.fusedOp.opid ∧
      (∀ a, getAttr genericOp "lowering_config" = some a →
        getAttr op "lowering_config" = some a) ∧
      (getAttr genericOp "lowering_config" = none →
        getAttr op "lowering_config" = getAttr r.fusedOp "lowering_config") := by
  obtain ⟨hsucc, hmem⟩ :=
    mem_body_of_success fusable fuse body genericOp i r hns hscan hid
  refine ⟨hsucc, _, hmem, ?_, ?_, ?_⟩
  · rw [opid_replaceUsesInOp, opid_attachLoweringConfig]
  · intro a ha
    rw [getAttr_replaceUsesInOp]
    unfold attachLoweringConfig
    rw [ha]
    exact getAttr_setAttr_same _ _ _
  · intro ha
    rw [getAttr_replaceUsesInOp]
    unfold attachLoweringConfig
    rw [ha]

/-- Consumer carrying a `lowering_config`, used by the C1 witness. -/
def c1Consumer : Op := ⟨1, [⟨20, tensorTy⟩], [⟨30, tensorTy⟩], [("lowering_config", 9)]⟩

/-- Fusion result for the C1 witness: a freshly constructed fused op. -/
def c1Res : ElementwiseOpFusionResult :=
  ⟨[], ⟨5, [⟨10, tensorTy⟩], [⟨40, tensorTy⟩], []⟩, [c1Consumer]⟩

/-- Fusion oracle for the C1 witness. -/
def c1Fuse : Nat → Option ElementwiseOpFusionResult :=
  fun i => if i == 0 then some c1Res else none

/-- Legality oracle accepting edge 0, shared by concrete instances. -/
def edge0Fusable : Nat → Bool := fun i => i == 0

/-- Witness for C1 at a concrete fusion whose consumer carries
`lowering_config = 9`. -/
theorem consumer_lowering_config_carried_witness :
    (matchAndRewrite edge0Fusable c1Fuse [c1Consumer] c1Consumer).succeeded = true ∧
    ∃ op ∈ (matchAndRewrite edge0Fusable c1Fuse [c1Consumer] c1Consumer).body,
      op.opid = c1Res.fusedOp.opid ∧
      (∀ a, getAttr c1Consumer "lowering_config" = some a →
        getAttr op "lowering_config" = some a) ∧
      (getAttr c1Consumer "lowering_config" = none →
        getAttr op "lowering_config" = getAttr c1Res.fusedOp "lowering_config") :=
  consumer_lowering_config_carried edge0Fusable c1Fuse [c1Consumer] c1Consumer 0 c1Res
    (by decide) rfl (by decide)

/-- Producer carrying `lowering_config = 7`, fused away in the C2
counterexample. -/
def c2Producer : Op := ⟨0, [⟨10, tensorTy⟩], [⟨20, tensorTy⟩], [("lowering_config", 7)]⟩

/-- Consumer without a `lowering_config`, used by the C2 counterexample. -/
def c2Consumer : Op := ⟨1, [⟨20, tensorTy⟩], [⟨30, tensorTy⟩], []⟩

/-- Modelled from the spec: the outcome of `linalg::fuseElementwiseOps`
(host infrastructure absent from the sources) on the edge
`c2Consumer → c2Producer` — the fused operation is freshly constructed, so
it carries no attribute of either original operation ("it would otherwise
be dropped because the fused operation is freshly constructed"), and the
producer is eliminated from the body. -/
def c2Fuse : Nat → Option ElementwiseOpFusionResult :=
  fun i => if i == 0 then
    some ⟨[], ⟨5, [⟨10, tensorTy⟩], [⟨40, tensorTy⟩], []⟩, [c2Consumer]⟩
  else none

/-- C2 counterexample: the producer is fused away while carrying
`lowering_config = 7`, the rewrite succeeds, yet no operation of the
resulting body carries any `lowering_config` — the rule transfers only the
consumer's attribute, so a producer's is lost. -/
theorem producer_lowering_config_dropped_cex :
    getAttr c2Producer "lowering_config" = some 7 ∧
    (matchAndRewrite edge0Fusable c2Fuse [c2Producer, c2Consumer] c2Consumer).succeeded
      = true ∧
    (∀ op ∈ (matchAndRewrite edge0Fusable c2Fuse [c2Producer, c2Consumer] c2Consumer).body,
      getAttr op "lowering_config" = none) := by decide

/-- C2 (amended): the attributes of the fused operation in the resulting
body are exactly those of the underlying fusion's fresh operation with the
*consumer's* `lowering_config` (and only it) re-attached when present — no
attribute of a fused-away producer is transferred by the rule. -/
theorem only_consumer_lowering_config_attached (fusable : Nat → Bool)
    (fuse : Nat → Option ElementwiseOpFusionResult) (body : List Op) (genericOp : Op)
    (i : Nat) (r : ElementwiseOpFusionResult)
    (hns : (genericOp.operands.all isScalarValue &&
      genericOp.results.all isScalarValue) = false)
    (hscan : scanFrom fusable fuse 0 genericOp.operands.length = some (i, r))
    (hid : r.fusedOp.opid ≠ genericOp.opid) :
    ∃ op ∈ (matchAndRewrite fusable fuse body genericOp).body,
      op.opid = r.fusedOp.opid ∧
      op.attrs = (attachLoweringConfig genericOp r.fusedOp).attrs := by
  obtain ⟨_, hmem⟩ :=
    mem_body_of_success fusable fuse body genericOp i r hns hscan hid
  exact ⟨_, hmem, by rw [opid_replaceUsesInOp, opid_attachLoweringConfig], rfl⟩

/-- Witness for the amended C2 at the concrete counterexample instance. -/
theorem only_consumer_lowering_config_attached_witness :
    ∃ op ∈ (matchAndRewrite edge0Fusable c2Fuse [c2Producer, c2Consumer] c2Consumer).body,
      op.opid = (⟨5, [⟨10, tensorTy⟩], [⟨40, tensorTy⟩], []⟩ : Op).opid ∧
      op.attrs = (attachLoweringConfig c2Consumer
        ⟨5, [⟨10, tensorTy⟩], [⟨40, tensorTy⟩], []⟩).attrs :=
  only_consumer_lowering_config_attached edge0Fusable c2Fuse
    [c2Producer, c2Consumer] c2Consumer 0
    ⟨[], ⟨5, [⟨10, tensorTy⟩], [⟨40, tensorTy⟩], []⟩, [c2Consumer]⟩
    (by decide) rfl (by decide)

/-- `take_back n` of a longer list has length `n`. -/
theorem length_takeBack (l : List Val) (n : Nat) (h : n ≤ l.length) :
    (takeBack l n).length = n := by
  unfold takeBack
  rw [List.length_drop]
  omega

/-- A member of a zip is a pair of equal-index elements. -/
theorem mem_zip_index {α β : Type} (l1 : List α) (l2 : List β) (p : α × β)
    (hp : p ∈ l1.zip l2) :
    ∃ k, ∃ h1 : k < l1.length, ∃ h2 : k < l2.length,
      p.1 = l1[k] ∧ p.2 = l2[k] := by
  obtain ⟨k, hk, hget⟩ := List.getElem_of_mem hp
  have hz : (l1.zip l2)[k]? = some p := by
    rw [List.getElem?_eq_getElem hk, hget]
  rw [List.getElem?_zip_eq_some] at hz
  obtain ⟨e1, e2⟩ := hz
  obtain ⟨h1, e1⟩ := List.getElem?_eq_some.mp e1
  obtain ⟨h2, e2⟩ := List.getElem?_eq_some.mp e2
  exact ⟨k, h1, h2, e1.symm, e2.symm⟩

/-- How the `replaceOp` substitution acts on one value identity: provided
the value is not (already) the `k`-th replacement, it matches the `k`-th
replacement after substitution exactly when it matched the `k`-th replaced
result before. -/
theorem substVal_id_eq (old new : List Val)
    (hnodupOld : (old.map Val.id).Nodup)
    (hnodupNew : (new.map Val.id).Nodup)
    (k : Nat) (hko : k < old.length) (hkn : k < new.length)
    (w : Val) (hw : w.id ≠ new[k].id) :
    ((substVal old new w).id == new[k].id) = (w.id == old[k].id) := by
  unfold substVal
  rcases hfind : (old.zip new).find? (fun p => p.fst.id == w.id) with _ | p
  · rw [hfind]
    show (w.id == new[k].id) = (w.id == old[k].id)
    rw [List.find?_eq_none] at hfind
    have hL : (w.id == new[k].id) = false := beq_eq_false_iff_ne.mpr hw
    rw [hL]
    by_cases hR : w.id = old[k].id
    · exfalso
      have hmem : ((old[k], new[k]) : Val × Val) ∈ old.zip new := by
        apply List.getElem?_mem (n := k)
        rw [List.getElem?_zip_eq_some]
        exact ⟨List.getElem?_eq_getElem hko, List.getElem?_eq_getElem hkn⟩
      have := hfind _ hmem
      simp only [beq_iff_eq] at this
      exact this hR.symm
    · rw [beq_eq_false_iff_ne.mpr hR]
  · rw [hfind]
    show (p.2.id == new[k].id) = (w.id == old[k].id)
    have hpred := List.find?_some hfind
    have hpmem := List.mem_of_find?_eq_some hfind
    obtain ⟨j, hj1, hj2, e1, e2⟩ := mem_zip_index old new p hpmem
    rw [beq_iff_eq] at hpred
    have hwid : w.id = old[j].id := by rw [← hpred, e1]
    rw [e2, hwid]
    by_cases hjk : j = k
    · subst hjk
      simp
    · have h1 : (new[j].id == new[k].id) = false := by
        rw [beq_eq_false_iff_ne]
        intro h
        apply hjk
        have hj2m : j < (new.map Val.id).length := by simpa using hj2
        have hknm : k < (new.map Val.id).length := by simpa using hkn
        have hmap : (new.map Val.id)[j] = (new.map Val.id)[k] := by
          simp only [List.getElem_map]
          exact h
        exact hnodupNew.getElem_inj_iff.mp hmap
      have h2 : (old[j].id == old[k].id) = false := by
        rw [beq_eq_false_iff_ne]
        intro h
        apply hjk
        have hj1m : j < (old.map Val.id).length := by simpa using hj1
        have hkom : k < (old.map Val.id).length := by simpa using hko
        have hmap : (old.map Val.id)[j] = (old.map Val.id)[k] := by
          simp only [List.getElem_map]
          exact h
        exact hnodupOld.getElem_inj_iff.mp hmap
      rw [h1, h2]

/-- Substituting a list of operand values preserves, slot by slot, the
number of uses: uses of the `k`-th replaced result become uses of the
`k`-th replacement, everything else is untouched. -/
theorem count_filter_subst (old new : List Val)
    (hnodupOld : (old.map Val.id).Nodup)
    (hnodupNew : (new.map Val.id).Nodup)
    (k : Nat) (hko : k < old.length) (hkn : k < new.length)
    (ops : List Val) (hfresh : ∀ w ∈ ops, w.id ≠ new[k].id) :
    ((ops.map (substVal old new)).filter (fun w => w.id == new[k].id)).length =
      (ops.filter (fun w => w.id == old[k].id)).length := by
  induction ops with
  | nil => rfl
  | cons w ws ih =>
    have hw : w.id ≠ new[k].id := hfresh w (List.mem_cons_self _ _)
    have heq := substVal_id_eq old new hnodupOld hnodupNew k hko hkn w hw
    have ihw := ih (fun x hx => hfresh x (List.mem_cons_of_mem _ hx))
    simp only [List.map_cons, List.filter_cons]
    rw [heq]
    by_cases hcase : (w.id == old[k].id) = true
    · simp [hcase, ihw]
    · rw [Bool.not_eq_true] at hcase
      simp [hcase, ihw]

/-- `replaceOp` is the same as first dropping the replaced operation and
then substituting operands, because the substitution does not change
operation identities. -/
theorem replaceOpIR_eq_filter_map (bodyL : List Op) (target : Op) (repl : List Val) :
    replaceOpIR bodyL target repl =
      (bodyL.filter (fun op => !(op.opid == target.opid))).map
        (replaceUsesInOp target.results repl) := by
  unfold replaceOpIR
  rw [List.filter_map]
  rfl

/-- Per-body version of `count_filter_subst`: the substitution performed by
`replaceOp` preserves the total number of uses, slot for slot. -/
theorem countUsesIn_map_subst (M : List Op) (old new : List Val)
    (hnodupOld : (old.map Val.id).Nodup)
    (hnodupNew : (new.map Val.id).Nodup)
    (k : Nat) (hko : k < old.length) (hkn : k < new.length)
    (hfresh : ∀ op ∈ M, ∀ w ∈ op.operands, w.id ≠ new[k].id) :
    countUsesIn (M.map (replaceUsesInOp old new)) new[k] =
      countUsesIn M old[k] := by
  unfold countUsesIn
  rw [List.map_map]
  apply congrArg List.sum
  apply List.map_congr_left
  intro op hop
  exact count_filter_subst old new hnodupOld hnodupNew k hko hkn
    op.operands (hfresh op hop)

/-- C5: on every successful fusion the original consumer is erased from
the resulting body, every use of its `N` results is remapped to the
corresponding element of the fused operation's trailing `N` results (1:1,
order-preserving, via the zip of the two result lists), and the number of
consuming uses of each result is unchanged by the remap. -/
theorem fusion_remaps_consumer_uses (fusable : Nat → Bool)
    (fuse : Nat → Option ElementwiseOpFusionResult) (body : List Op) (genericOp : Op)
    (i : Nat) (r : ElementwiseOpFusionResult)
    (fusedOp2 : Op) (repl : List Val) (newBody : List Op)
    (hns : (genericOp.operands.all isScalarValue &&
      genericOp.results.all isScalarValue) = false)
    (hscan : scanFrom fusable fuse 0 genericOp.operands.length = some (i, r))
    (hfe : fusedOp2 = attachLoweringConfig genericOp r.fusedOp)
    (hnb : newBody = r.bodyBefore ++ fusedOp2 :: r.bodyAfter)
    (hrepl : repl = takeBack fusedOp2.results genericOp.results.length)
    (hN : genericOp.results.length ≤ fusedOp2.results.length)
    (hnodupOld : (genericOp.results.map Val.id).Nodup)
    (hnodupNew : (repl.map Val.id).Nodup)
    (hfresh : ∀ op ∈ newBody, op.opid ≠ genericOp.opid →
      ∀ w ∈ op.operands, ∀ b ∈ repl, w.id ≠ b.id) :
    (matchAndRewrite fusable fuse body genericOp).succeeded = true ∧
    (matchAndRewrite fusable fuse body genericOp).body =
      replaceOpIR newBody genericOp repl ∧
    (∀ op ∈ (matchAndRewrite fusable fuse body genericOp).body,
      op.opid ≠ genericOp.opid) ∧
    repl.length = genericOp.results.length ∧
    (∀ p ∈ genericOp.results.zip repl,
      countUsesIn (matchAndRewrite fusable fuse body genericOp).body p.2 =
        countUsesIn (newBody.filter (fun op => !(op.opid == genericOp.opid)))
          p.1) := by
  subst hfe
  subst hnb
  subst hrepl
  have hbody : (matchAndRewrite fusable fuse body genericOp).body =
      replaceOpIR
        (r.bodyBefore ++ attachLoweringConfig genericOp r.fusedOp :: r.bodyAfter)
        genericOp
        (takeBack (attachLoweringConfig genericOp r.fusedOp).results
          genericOp.results.length) := by
    simp [matchAndRewrite, hns, hscan]
  have hlen := length_takeBack (attachLoweringConfig genericOp r.fusedOp).results
    genericOp.results.length hN
  refine ⟨by simp [matchAndRewrite, hns, hscan], hbody, ?_, hlen, ?_⟩
  · intro op hop
    rw [hbody] at hop
    unfold replaceOpIR at hop
    have hpred := (List.mem_filter.mp hop).2
    rw [Bool.not_eq_true'] at hpred
    exact beq_eq_false_iff_ne.mp hpred
  · intro p hp
    obtain ⟨k, hk1, hk2, e1, e2⟩ := mem_zip_index _ _ p hp
    rw [hbody, replaceOpIR_eq_filter_map, e1, e2]
    apply countUsesIn_map_subst _ _ _ hnodupOld hnodupNew k hk1 hk2
    intro op hop w hw
    have hmem := List.mem_filter.mp hop
    have hpred := hmem.2
    rw [Bool.not_eq_true'] at hpred
    exact hfresh op hmem.1 (beq_eq_false_iff_ne.mp hpred) w hw _
      (List.getElem_mem hk2)

/-- Producer operation for the C5 witness. -/
def c5Producer : Op := ⟨0, [⟨10, tensorTy⟩], [⟨20, tensorTy⟩], []⟩

/-- Consumer operation for the C5 witness; its single result (value 30) is
used once downstream. -/
def c5Consumer : Op := ⟨1, [⟨20, tensorTy⟩], [⟨30, tensorTy⟩], []⟩

/-- Downstream user of the consumer's result, kept across the rewrite. -/
def c5User : Op := ⟨2, [⟨30, tensorTy⟩, ⟨10, tensorTy⟩], [⟨60, tensorTy⟩], []⟩

/-- Fused operation for the C5 witness; its trailing result is value 50. -/
def c5Fused : Op := ⟨5, [⟨10, tensorTy⟩], [⟨50, tensorTy⟩], []⟩

/-- Fusion outcome for the C5 witness: the fused operation replaces the
producer; consumer and downstream user are still present. -/
def c5Res : ElementwiseOpFusionResult := ⟨[], c5Fused, [c5Consumer, c5User]⟩

/-- Fusion oracle for the C5 witness. -/
def c5Fuse : Nat → Option ElementwiseOpFusionResult :=
  fun i => if i == 0 then some c5Res else none

/-- Witness for C5 at a concrete fusion with one remapped use. -/
theorem fusion_remaps_consumer_uses_witness :
    (matchAndRewrite edge0Fusable c5Fuse [c5Producer, c5Consumer, c5User]
      c5Consumer).succeeded = true ∧
    (matchAndRewrite edge0Fusable c5Fuse [c5Producer, c5Consumer, c5User]
      c5Consumer).body =
      replaceOpIR [c5Fused, c5Consumer, c5User] c5Consumer [⟨50, tensorTy⟩] ∧
    (∀ op ∈ (matchAndRewrite edge0Fusable c5Fuse [c5Producer, c5Consumer, c5User]
      c5Consumer).body, op.opid ≠ c5Consumer.opid) ∧
    ([(⟨50, tensorTy⟩ : Val)]).length = c5Consumer.results.length ∧
    (∀ p ∈ c5Consumer.results.zip [(⟨50, tensorTy⟩ : Val)],
      countUsesIn (matchAndRewrite edge0Fusable c5Fuse
        [c5Producer, c5Consumer, c5User] c5Consumer).body p.2 =
        countUsesIn (([c5Fused, c5Consumer, c5User] : List Op).filter
          (fun op => !(op.opid == c5Consumer.opid))) p.1) :=
  fusion_remaps_consumer_uses edge0Fusable c5Fuse [c5Producer, c5Consumer, c5User]
    c5Consumer 0 c5Res c5Fused [⟨50, tensorTy⟩] [c5Fused, c5Consumer, c5User]
    (by decide) rfl (by decide) (by decide) (by decide) (by decide) (by decide)
    (by decide) (by decide)

end Rematerialize
